import Mathlib

/-!
Shallow embedding of the cloudwatch-event-notifier-lambda handler
(src/main.go) and proofs about its behaviour.

The handler receives a CloudWatch event, acts only on source "aws.emr",
JSON-decodes the opaque detail bytes into an EMREventDetail, builds one
Slack attachment, chunks the attachment list by 100 and sends each chunk
through the Slack client, logging outcomes and always returning nil.

Modelling choices:
- the opaque detail bytes are modelled in parsed form as an
  `Option Json`: `none` stands for bytes that are not syntactically valid
  JSON, `some j` for valid bytes with parse tree `j`;
- the Slack client is an oracle `Payload → Except String String`
  (error message or response body);
- the wall clock is an explicit `nowUnixNano : Int` argument
  (time.Now().UnixNano());
- the handler result records the returned error value, the built
  attachment list, every send call made with its outcome, and the log
  lines emitted.
-/

/-- JSON values: the parsed form of the detail payload bytes. -/
inductive Json where
  | str (s : String)
  | num (n : Int)
  | boolean (b : Bool)
  | null
  | arr (elems : List Json)
  | obj (fields : List (String × Json))

/-- EMREventDetail struct (src/main.go, lines 44-48): the few attributes
extracted from the detail payload, with json tags severity/state/message. -/
structure EMREventDetail where
  severity : String
  state : String
  message : String
deriving DecidableEq

/-- The latin long s (U+017F): the one non-ASCII rune in Unicode simple
case folding's orbit of the letter s. -/
def longS : Char := Char.ofNat 0x17F

/-- The Kelvin sign (U+212A): the one non-ASCII rune in Unicode simple
case folding's orbit of the letter k. -/
def kelvinSign : Char := Char.ofNat 0x212A

/-- One character step of strings.EqualFold, the case folding
encoding/json uses to match incoming object keys against field tags: two
runes match when they ASCII-fold to the same character or lie in the same
non-trivial simple-folding orbit. Among orbits meeting ASCII, only those
of s and k have extra members (U+017F and U+212A); this definition agrees
with Go's simple folding whenever either side is ASCII, which covers every
comparison made here since the three field tags are ASCII. -/
def charFoldEq (a b : Char) : Bool :=
  a.toLower == b.toLower
    || ((a == longS || a.toLower == 's') && (b == longS || b.toLower == 's'))
    || ((a == kelvinSign || a.toLower == 'k') && (b == kelvinSign || b.toLower == 'k'))

/-- Rune-wise simple case folding of two character lists, as
strings.EqualFold walks two strings. -/
def equalFoldChars : List Char → List Char → Bool
  | [], [] => true
  | a :: as, b :: bs => charFoldEq a b && equalFoldChars as bs
  | _, _ => false

/-- strings.EqualFold: the key-matching test of encoding/json (it prefers
an exact match but also accepts a case-insensitive one; as the three field
tags severity/state/message are pairwise non-folding, a key matches at
most one field, and matching is just EqualFold against each tag). -/
def equalFold (s t : String) : Bool :=
  equalFoldChars s.toList t.toList

/-- Processing one incoming object entry against the EMREventDetail
struct, as encoding/json does: the key is matched case-insensitively
(EqualFold) against the tags severity, state, message; a string value is
stored in the matched field, a null value leaves it unchanged, any other
value for a matched field is an unmarshalling error, and a key matching
no field is ignored. -/
def applyField (d : EMREventDetail) (key : String) (value : Json) :
    Except String EMREventDetail :=
  if equalFold key "severity" then
    match value with
    | Json.str s => Except.ok { d with severity := s }
    | Json.null => Except.ok d
    | _ => Except.error "json: cannot unmarshal value into string field severity"
  else if equalFold key "state" then
    match value with
    | Json.str s => Except.ok { d with state := s }
    | Json.null => Except.ok d
    | _ => Except.error "json: cannot unmarshal value into string field state"
  else if equalFold key "message" then
    match value with
    | Json.str s => Except.ok { d with message := s }
    | Json.null => Except.ok d
    | _ => Except.error "json: cannot unmarshal value into string field message"
  else Except.ok d

/-- The object-decoding loop of encoding/json: entries are processed in
order of appearance, so a later key matching the same field overwrites the
earlier value (last duplicate wins). -/
def unmarshalFields (d : EMREventDetail) :
    List (String × Json) → Except String EMREventDetail
  | [] => Except.ok d
  | (key, value) :: rest => do
      let d2 ← applyField d key value
      unmarshalFields d2 rest

/-- json.Unmarshal(event.Detail, &emrEventDetail) (src/main.go, line 79).
Malformed bytes (`none`) are a syntax error; a top-level null is a no-op
leaving the zero struct; a non-object, non-null top level is an
unmarshalling error; an object is decoded entry by entry into the zero
struct. (Go fills well-typed fields even when a later entry errors and
returns the first error; since the handler discards the struct whenever
the error is non-nil, collapsing that pair to an Except is faithful to
everything the handler can observe.) -/
def unmarshalEMREventDetail : Option Json → Except String EMREventDetail
  | none => Except.error "invalid character in detail bytes"
  | some Json.null => Except.ok { severity := "", state := "", message := "" }
  | some (Json.obj fields) =>
      unmarshalFields { severity := "", state := "", message := "" } fields
  | some _ => Except.error "json: cannot unmarshal non-object into EMREventDetail"

/-- slack.AttachmentField: one titled value in an attachment. -/
structure AttachmentField where
  title : String
  value : String
  short : Bool
deriving DecidableEq

/-- slack.Attachment: one formatted message block. -/
structure Attachment where
  color : String
  title : String
  text : String
  footer : String
  footerIcon : String
  ts : Int
  attachmentField : List AttachmentField
deriving DecidableEq

/-- slack.Payload: what one Send call carries. -/
structure Payload where
  channel : String
  attachments : List Attachment
deriving DecidableEq

/-- time.Time of the envelope, abstracted to what the handler uses of it:
its String() rendering. -/
structure GoTime where
  render : String
deriving DecidableEq

/-- events.CloudWatchEvent, restricted to the fields the handler reads.
The Detail bytes are carried in parsed form (see module comment). -/
structure CloudWatchEvent where
  source : String
  detailType : String
  accountID : String
  region : String
  time : GoTime
  detail : Option Json

/-- Process-wide configuration established in init(): the monitor channel
(SLACK_MONITOR_CHANNEL) and the footer label (AWS_LAMBDA_FUNCTION_NAME). -/
structure Config where
  slackMonitorChannel : String
  functionName : String
deriving DecidableEq

/-- slackAttachmentsChunkSize, set to 100 in init() (src/main.go, line 65). -/
def slackAttachmentsChunkSize : Nat := 100

/-- The constant FooterIcon URL (src/main.go, line 95). -/
def footerIconURL : String :=
  "https://d1d05r7k0qlw4w.cloudfront.net/dist-cbe91c5a8477701757ff6752aae4c6f892018972/img/favicon.ico"

/-- Color selection (src/main.go, lines 85-88): start from "good",
switch to "danger" when severity == "ERROR". -/
def colorFor (severity : String) : String :=
  if severity == "ERROR" then "danger" else "good"

/-- Building the slack.Attachment literal (src/main.go, lines 90-119). -/
def buildAttachment (cfg : Config) (event : CloudWatchEvent)
    (emrEventDetail : EMREventDetail) (nowUnixNano : Int) : Attachment :=
  { color := colorFor emrEventDetail.severity
    title := event.detailType
    text := emrEventDetail.message
    footer := cfg.functionName
    footerIcon := footerIconURL
    ts := Int.tdiv nowUnixNano 1000000000
    attachmentField :=
      [ { title := "AccountID", value := event.accountID, short := true }
      , { title := "Region", value := event.region, short := true }
      , { title := "State", value := emrEventDetail.state, short := true }
      , { title := "Time", value := event.time.render, short := true } ] }

/-- The chunking of the attachment list performed by the for loop at
src/main.go lines 126-132: successive slices [i : i+100), the last one
possibly shorter. -/
def chunkAttachments : List Attachment → List (List Attachment)
  | [] => []
  | a :: rest =>
      (a :: rest).take slackAttachmentsChunkSize
        :: chunkAttachments ((a :: rest).drop slackAttachmentsChunkSize)
termination_by xs => xs.length
decreasing_by
  simp [slackAttachmentsChunkSize]
  omega

/-- One log line, tagged with the logger it went to. -/
inductive LogEntry where
  | errorLine (msg : String)
  | infoLine (msg : String)
  | warningLine (msg : String)
deriving DecidableEq

/-- The body of the dispatch loop (src/main.go, lines 126-143): for each
chunk, build the payload, call Send, and record the outcome. A Send error
is only logged; the loop continues with the next chunk unconditionally. -/
def dispatchLoop (send : Payload → Except String String) (channel : String) :
    List (List Attachment) → List (Payload × Except String String)
  | [] => []
  | chunk :: rest =>
      (Payload.mk channel chunk, send (Payload.mk channel chunk))
        :: dispatchLoop send channel rest

/-- The log line each loop iteration emits: Error.Println(err) on a send
error, Info.Println(resp) on success (src/main.go, lines 138-142). -/
def sendLog : Payload × Except String String → LogEntry
  | (_, Except.error e) => LogEntry.errorLine e
  | (_, Except.ok resp) => LogEntry.infoLine resp

/-- Everything one invocation of HandleRequest did: the error value it
returned to the runtime, the attachment list it built, the send calls it
made with their outcomes, and the log lines it printed. -/
structure HandleResult where
  returnedError : Option String
  slackAttachments : List Attachment
  sends : List (Payload × Except String String)
  logs : List LogEntry

/-- The tail of HandleRequest (src/main.go, lines 123-147): if the
attachment list is non-empty, chunk it and send every chunk, logging each
outcome; otherwise log the "No Slack Sent" warning. Either way return nil. -/
def finishDispatch (cfg : Config) (send : Payload → Except String String)
    (slackAttachments : List Attachment) : HandleResult :=
  if slackAttachments.length ≠ 0 then
    { returnedError := none
      slackAttachments := slackAttachments
      sends := dispatchLoop send cfg.slackMonitorChannel
        (chunkAttachments slackAttachments)
      logs := (dispatchLoop send cfg.slackMonitorChannel
        (chunkAttachments slackAttachments)).map sendLog }
  else
    { returnedError := none
      slackAttachments := slackAttachments
      sends := []
      logs := [LogEntry.warningLine "No Slack Sent"] }

/-- HandleRequest (src/main.go, lines 74-148). Starts from an empty
attachment list; on source "aws.emr" decodes the detail (returning nil
after logging on a decode error) and appends the one built attachment;
then dispatches whatever was built. -/
def HandleRequest (cfg : Config) (send : Payload → Except String String)
    (nowUnixNano : Int) (event : CloudWatchEvent) : HandleResult :=
  if event.source == "aws.emr" then
    match unmarshalEMREventDetail event.detail with
    | Except.error e =>
        { returnedError := none
          slackAttachments := []
          sends := []
          logs := [LogEntry.errorLine e] }
    | Except.ok emrEventDetail =>
        finishDispatch cfg send
          ([] ++ [buildAttachment cfg event emrEventDetail nowUnixNano])
  else
    finishDispatch cfg send []

/-- A fixed attachment used as a concrete test value. -/
def dummyAtt : Attachment :=
  { color := "good", title := "t", text := "x", footer := "f"
    footerIcon := footerIconURL, ts := 0, attachmentField := [] }

/-! Helper lemmas about the chunking loop and the dispatch loop. -/

lemma chunkAttachments_nil : chunkAttachments [] = [] := by
  simp [chunkAttachments]

lemma chunkAttachments_cons (a : Attachment) (rest : List Attachment) :
    chunkAttachments (a :: rest) =
      (a :: rest).take slackAttachmentsChunkSize
        :: chunkAttachments ((a :: rest).drop slackAttachmentsChunkSize) := by
  simp [chunkAttachments]

lemma chunkAttachments_singleton (a : Attachment) :
    chunkAttachments [a] = [[a]] := by
  rw [chunkAttachments_cons]
  simp [slackAttachmentsChunkSize, chunkAttachments_nil]

lemma chunkAttachments_flatten (xs : List Attachment) :
    (chunkAttachments xs).flatten = xs := by
  induction xs using chunkAttachments.induct with
  | case1 => simp [chunkAttachments_nil]
  | case2 a rest ih =>
      rw [chunkAttachments_cons]
      simp only [List.flatten_cons, ih, List.take_append_drop]

lemma chunkAttachments_length (xs : List Attachment) :
    (chunkAttachments xs).length = (xs.length + 99) / 100 := by
  induction xs using chunkAttachments.induct with
  | case1 => simp [chunkAttachments_nil]
  | case2 a rest ih =>
      rw [chunkAttachments_cons, List.length_cons, ih]
      simp only [List.length_drop, List.length_cons, slackAttachmentsChunkSize]
      omega

lemma chunkAttachments_mem_length_le (xs : List Attachment)
    (c : List Attachment) (h : c ∈ chunkAttachments xs) :
    c.length ≤ slackAttachmentsChunkSize := by
  induction xs using chunkAttachments.induct with
  | case1 => rw [chunkAttachments_nil] at h; cases h
  | case2 a rest ih =>
      rw [chunkAttachments_cons] at h
      cases h with
      | head => simp [List.length_take]
      | tail _ h2 => exact ih h2

lemma dispatchLoop_eq_map (send : Payload → Except String String)
    (channel : String) (cs : List (List Attachment)) :
    dispatchLoop send channel cs =
      cs.map (fun c => (Payload.mk channel c, send (Payload.mk channel c))) := by
  induction cs with
  | nil => rfl
  | cons c rest ih => simp [dispatchLoop, ih]

/-! The claims. -/

/-- C1: for every inbound event and every outcome of decoding and sending
(the decode outcome ranges over all values of event.detail, the send
outcome over all oracles), HandleRequest returns success (nil) to the
runtime; decode and send errors never become an invocation-level failure. -/
theorem HandleRequest_always_returns_success
    (cfg : Config) (send : Payload → Except String String)
    (nowUnixNano : Int) (event : CloudWatchEvent) :
    (HandleRequest cfg send nowUnixNano event).returnedError = none := by
  unfold HandleRequest finishDispatch
  split
  · split
    · rfl
    · split
      · rfl
      · rfl
  · split
    · rfl
    · rfl

/-- C3: the built notification color is "danger" exactly when the decoded
severity is the string "ERROR", "good" for every other severity value
(including the empty string), and no third color value ever occurs. -/
theorem attachment_color_dichotomy (cfg : Config) (event : CloudWatchEvent)
    (d : EMREventDetail) (nowUnixNano : Int) :
    ((buildAttachment cfg event d nowUnixNano).color = "danger" ↔ d.severity = "ERROR")
    ∧ ((buildAttachment cfg event d nowUnixNano).color = "good" ↔ d.severity ≠ "ERROR")
    ∧ ((buildAttachment cfg event d nowUnixNano).color = "danger"
        ∨ (buildAttachment cfg event d nowUnixNano).color = "good") := by
  simp only [buildAttachment, colorFor]
  by_cases h : d.severity = "ERROR" <;> simp [h]

/-- C9: the built notification's timestamp is the wall clock at build time
(UnixNano) divided by 1e9 with truncation — whole epoch seconds — and it
does not depend on the inbound event (in particular not on event.time). -/
theorem attachment_ts_is_build_time (cfg : Config) (event : CloudWatchEvent)
    (d : EMREventDetail) (nowUnixNano : Int) :
    (buildAttachment cfg event d nowUnixNano).ts = Int.tdiv nowUnixNano 1000000000
    ∧ ∀ other : CloudWatchEvent,
        (buildAttachment cfg other d nowUnixNano).ts
          = (buildAttachment cfg event d nowUnixNano).ts :=
  ⟨rfl, fun _ => rfl⟩

/-- C10: one invocation builds at most one attachment, so the chunking
loop makes at most one send call; multi-chunk dispatch is unreachable from
HandleRequest. -/
theorem single_event_at_most_one_send
    (cfg : Config) (send : Payload → Except String String)
    (nowUnixNano : Int) (event : CloudWatchEvent) :
    (HandleRequest cfg send nowUnixNano event).slackAttachments.length ≤ 1
    ∧ (HandleRequest cfg send nowUnixNano event).sends.length ≤ 1 := by
  unfold HandleRequest
  split
  · split
    · simp
    · simp [finishDispatch, chunkAttachments_singleton, dispatchLoop]
  · simp [finishDispatch]

/-- C2: for every non-empty unit list, the dispatch loop makes exactly
ceil(L/100) send calls, each on the configured channel with at most 100
attachments, and the sent slices are contiguous, in original order, and
partition the list (flattening them back gives the list unchanged). -/
theorem dispatch_partitions_units
    (send : Payload → Except String String) (channel : String)
    (units : List Attachment) (h : 0 < units.length) :
    (dispatchLoop send channel (chunkAttachments units)).length
        = (units.length + 99) / 100
    ∧ (∀ r ∈ dispatchLoop send channel (chunkAttachments units),
        r.1.attachments.length ≤ 100 ∧ r.1.channel = channel)
    ∧ ((dispatchLoop send channel (chunkAttachments units)).map
        (fun r => r.1.attachments)).flatten = units := by
  refine ⟨?_, ?_, ?_⟩
  · rw [dispatchLoop_eq_map, List.length_map, chunkAttachments_length]
  · intro r hr
    rw [dispatchLoop_eq_map] at hr
    obtain ⟨c, hc, rfl⟩ := List.mem_map.mp hr
    exact ⟨chunkAttachments_mem_length_le _ _ hc, rfl⟩
  · rw [dispatchLoop_eq_map, List.map_map]
    simp [Function.comp_def, chunkAttachments_flatten]

/-- A send oracle that always succeeds, used as a concrete test value. -/
def sendOk : Payload → Except String String := fun _ => Except.ok "ok"

/-- Witness for C2 at the one-element unit list. -/
theorem dispatch_partitions_units_witness :
    (dispatchLoop sendOk "monitor" (chunkAttachments [dummyAtt])).length
        = (([dummyAtt] : List Attachment).length + 99) / 100
    ∧ (∀ r ∈ dispatchLoop sendOk "monitor" (chunkAttachments [dummyAtt]),
        r.1.attachments.length ≤ 100 ∧ r.1.channel = "monitor")
    ∧ ((dispatchLoop sendOk "monitor" (chunkAttachments [dummyAtt])).map
        (fun r => r.1.attachments)).flatten = [dummyAtt] :=
  dispatch_partitions_units sendOk "monitor" [dummyAtt] (by decide)

/-- C4: dispatch never stops early: if the send for the chunk at index i
fails, the chunk at any later index j is still attempted (its payload and
its own outcome are recorded), the error is logged, and every chunk is
sent exactly once in order (no retry of the failed chunk). -/
theorem dispatch_continues_after_error
    (send : Payload → Except String String) (channel : String)
    (units : List Attachment) (i j : Nat) (ci cj : List Attachment) (e : String)
    (hlen : 0 < units.length) (hij : i < j)
    (hci : (chunkAttachments units)[i]? = some ci)
    (hcj : (chunkAttachments units)[j]? = some cj)
    (herr : send (Payload.mk channel ci) = Except.error e) :
    (dispatchLoop send channel (chunkAttachments units))[i]? =
        some (Payload.mk channel ci, Except.error e)
    ∧ (dispatchLoop send channel (chunkAttachments units))[j]? =
        some (Payload.mk channel cj, send (Payload.mk channel cj))
    ∧ LogEntry.errorLine e
        ∈ (dispatchLoop send channel (chunkAttachments units)).map sendLog
    ∧ (dispatchLoop send channel (chunkAttachments units)).map
        (fun r => r.1.attachments) = chunkAttachments units := by
  have hmap := dispatchLoop_eq_map send channel (chunkAttachments units)
  have h1 : (dispatchLoop send channel (chunkAttachments units))[i]? =
      some (Payload.mk channel ci, Except.error e) := by
    rw [hmap, List.getElem?_map, hci]
    simp only [Option.map_some']
    rw [herr]
  refine ⟨h1, ?_, ?_, ?_⟩
  · rw [hmap, List.getElem?_map, hcj]
    simp only [Option.map_some']
  · have h2 : ((dispatchLoop send channel (chunkAttachments units)).map
        sendLog)[i]? = some (LogEntry.errorLine e) := by
      rw [List.getElem?_map, h1]
      simp only [Option.map_some']
      rfl
    exact List.getElem?_mem h2
  · rw [hmap, List.map_map]
    simp [Function.comp_def]

/-- A send oracle that fails exactly on full chunks, used to witness C4. -/
def sendBoom : Payload → Except String String :=
  fun p => if p.attachments.length == 100 then Except.error "boom" else Except.ok "ok"

/-- Witness for C4: 101 identical units give two chunks; the send of the
first chunk (100 attachments) fails, the second is still attempted. -/
theorem dispatch_continues_after_error_witness :
    (dispatchLoop sendBoom "monitor" (chunkAttachments (List.replicate 101 dummyAtt)))[0]? =
        some (Payload.mk "monitor" (List.replicate 100 dummyAtt), Except.error "boom")
    ∧ (dispatchLoop sendBoom "monitor" (chunkAttachments (List.replicate 101 dummyAtt)))[1]? =
        some (Payload.mk "monitor" [dummyAtt], sendBoom (Payload.mk "monitor" [dummyAtt]))
    ∧ LogEntry.errorLine "boom"
        ∈ (dispatchLoop sendBoom "monitor" (chunkAttachments (List.replicate 101 dummyAtt))).map sendLog
    ∧ (dispatchLoop sendBoom "monitor" (chunkAttachments (List.replicate 101 dummyAtt))).map
        (fun r => r.1.attachments) = chunkAttachments (List.replicate 101 dummyAtt) := by
  have hch : chunkAttachments (List.replicate 101 dummyAtt) =
      [List.replicate 100 dummyAtt, [dummyAtt]] := by
    rw [show List.replicate 101 dummyAtt = dummyAtt :: List.replicate 100 dummyAtt from rfl]
    rw [chunkAttachments_cons]
    rw [show (dummyAtt :: List.replicate 100 dummyAtt).take slackAttachmentsChunkSize
        = List.replicate 100 dummyAtt from rfl]
    rw [show (dummyAtt :: List.replicate 100 dummyAtt).drop slackAttachmentsChunkSize
        = [dummyAtt] from rfl]
    rw [chunkAttachments_singleton]
  exact dispatch_continues_after_error sendBoom "monitor"
    (List.replicate 101 dummyAtt) 0 1 (List.replicate 100 dummyAtt) [dummyAtt]
    "boom" (by decide) (by decide) (by rw [hch]; rfl) (by rw [hch]; rfl) rfl

/-- C5: on a matching event whose detail bytes are malformed, decoding
fails, the error is logged, no unit is built, no send happens, and the
invocation still returns success. -/
theorem decode_failure_is_noop
    (cfg : Config) (send : Payload → Except String String) (nowUnixNano : Int)
    (event : CloudWatchEvent)
    (hsrc : event.source = "aws.emr") (hmal : event.detail = none) :
    (∃ e, unmarshalEMREventDetail event.detail = Except.error e
      ∧ (HandleRequest cfg send nowUnixNano event).logs = [LogEntry.errorLine e])
    ∧ (HandleRequest cfg send nowUnixNano event).slackAttachments = []
    ∧ (HandleRequest cfg send nowUnixNano event).sends = []
    ∧ (HandleRequest cfg send nowUnixNano event).returnedError = none := by
  unfold HandleRequest
  rw [hsrc, hmal]
  exact ⟨⟨"invalid character in detail bytes", rfl, rfl⟩, rfl, rfl, rfl⟩

/-- A matching event carrying malformed detail bytes, as a test value. -/
def malformedEvent : CloudWatchEvent :=
  { source := "aws.emr", detailType := "EMR Cluster State Change"
    accountID := "123456789012", region := "us-east-1"
    time := { render := "2018-01-01 00:00:00 +0000 UTC" }, detail := none }

/-- Witness for C5 at a concrete malformed event. -/
theorem decode_failure_is_noop_witness :
    (∃ e, unmarshalEMREventDetail malformedEvent.detail = Except.error e
      ∧ (HandleRequest ⟨"monitor", "fn"⟩ sendOk 0 malformedEvent).logs
          = [LogEntry.errorLine e])
    ∧ (HandleRequest ⟨"monitor", "fn"⟩ sendOk 0 malformedEvent).slackAttachments = []
    ∧ (HandleRequest ⟨"monitor", "fn"⟩ sendOk 0 malformedEvent).sends = []
    ∧ (HandleRequest ⟨"monitor", "fn"⟩ sendOk 0 malformedEvent).returnedError = none :=
  decode_failure_is_noop ⟨"monitor", "fn"⟩ sendOk 0 malformedEvent rfl rfl

/-- C6: an event whose source is not "aws.emr" builds nothing, sends
nothing, logs the "No Slack Sent" warning, and returns success. -/
theorem non_matching_source_is_noop
    (cfg : Config) (send : Payload → Except String String) (nowUnixNano : Int)
    (event : CloudWatchEvent) (hsrc : event.source ≠ "aws.emr") :
    (HandleRequest cfg send nowUnixNano event).slackAttachments = []
    ∧ (HandleRequest cfg send nowUnixNano event).sends = []
    ∧ (HandleRequest cfg send nowUnixNano event).logs
        = [LogEntry.warningLine "No Slack Sent"]
    ∧ (HandleRequest cfg send nowUnixNano event).returnedError = none := by
  have hb : (event.source == "aws.emr") = false := by
    simp [hsrc]
  unfold HandleRequest
  rw [hb]
  exact ⟨rfl, rfl, rfl, rfl⟩

/-- A non-matching event (source aws.ec2), as a test value. -/
def ec2Event : CloudWatchEvent :=
  { source := "aws.ec2", detailType := "EC2 Instance State-change Notification"
    accountID := "123456789012", region := "us-east-1"
    time := { render := "2018-01-01 00:00:00 +0000 UTC" }
    detail := some (Json.obj []) }

/-- Witness for C6 at a concrete aws.ec2 event. -/
theorem non_matching_source_is_noop_witness :
    (HandleRequest ⟨"monitor", "fn"⟩ sendOk 0 ec2Event).slackAttachments = []
    ∧ (HandleRequest ⟨"monitor", "fn"⟩ sendOk 0 ec2Event).sends = []
    ∧ (HandleRequest ⟨"monitor", "fn"⟩ sendOk 0 ec2Event).logs
        = [LogEntry.warningLine "No Slack Sent"]
    ∧ (HandleRequest ⟨"monitor", "fn"⟩ sendOk 0 ec2Event).returnedError = none :=
  non_matching_source_is_noop ⟨"monitor", "fn"⟩ sendOk 0 ec2Event (by decide)

/-- C8: on a matching event that decodes to d, the handler builds exactly
the one attachment whose title is envelope.detailType verbatim, whose text
is detail.message verbatim, and whose field list is exactly the four
fields AccountID, Region, State, Time in that order, all short, all
present whatever their (possibly empty) values. -/
theorem build_attachment_shape
    (cfg : Config) (send : Payload → Except String String) (nowUnixNano : Int)
    (event : CloudWatchEvent) (d : EMREventDetail)
    (hsrc : event.source = "aws.emr")
    (hdec : unmarshalEMREventDetail event.detail = Except.ok d) :
    (HandleRequest cfg send nowUnixNano event).slackAttachments
        = [buildAttachment cfg event d nowUnixNano]
    ∧ (buildAttachment cfg event d nowUnixNano).title = event.detailType
    ∧ (buildAttachment cfg event d nowUnixNano).text = d.message
    ∧ (buildAttachment cfg event d nowUnixNano).attachmentField =
        [ { title := "AccountID", value := event.accountID, short := true }
        , { title := "Region", value := event.region, short := true }
        , { title := "State", value := d.state, short := true }
        , { title := "Time", value := event.time.render, short := true } ] := by
  refine ⟨?_, rfl, rfl, rfl⟩
  unfold HandleRequest
  rw [hsrc, hdec]
  rfl

/-- A matching event whose detail decodes successfully, as a test value:
the detail object sets severity ERROR, state TERMINATED, message boom. -/
def emrOkEvent : CloudWatchEvent :=
  { source := "aws.emr", detailType := "EMR Cluster State Change"
    accountID := "123456789012", region := "us-east-1"
    time := { render := "2018-01-01 00:00:00 +0000 UTC" }
    detail := some (Json.obj
      [ ("severity", Json.str "ERROR")
      , ("state", Json.str "TERMINATED")
      , ("message", Json.str "boom") ]) }

/-- The EMREventDetail value emrOkEvent decodes to. -/
def emrOkDetail : EMREventDetail :=
  { severity := "ERROR", state := "TERMINATED", message := "boom" }

/-- Witness for C8 at emrOkEvent. -/
theorem build_attachment_shape_witness :
    (HandleRequest ⟨"monitor", "fn"⟩ sendOk 0 emrOkEvent).slackAttachments
        = [buildAttachment ⟨"monitor", "fn"⟩ emrOkEvent emrOkDetail 0]
    ∧ (buildAttachment ⟨"monitor", "fn"⟩ emrOkEvent emrOkDetail 0).title
        = emrOkEvent.detailType
    ∧ (buildAttachment ⟨"monitor", "fn"⟩ emrOkEvent emrOkDetail 0).text
        = emrOkDetail.message
    ∧ (buildAttachment ⟨"monitor", "fn"⟩ emrOkEvent emrOkDetail 0).attachmentField =
        [ { title := "AccountID", value := emrOkEvent.accountID, short := true }
        , { title := "Region", value := emrOkEvent.region, short := true }
        , { title := "State", value := emrOkDetail.state, short := true }
        , { title := "Time", value := emrOkEvent.time.render, short := true } ] :=
  build_attachment_shape ⟨"monitor", "fn"⟩ sendOk 0 emrOkEvent emrOkDetail rfl rfl

/-! Decode lemmas: relating the entry-by-entry decoding loop to a
per-field description. -/

lemma equalFoldChars_length (as bs : List Char)
    (h : equalFoldChars as bs = true) : as.length = bs.length := by
  induction as generalizing bs with
  | nil =>
      cases bs with
      | nil => rfl
      | cons b bs => simp [equalFoldChars] at h
  | cons a as ih =>
      cases bs with
      | nil => simp [equalFoldChars] at h
      | cons b bs =>
          simp only [equalFoldChars, Bool.and_eq_true] at h
          simp [ih bs h.2]

lemma equalFold_unique_tag (key t1 t2 : String)
    (hne : t1.toList.length ≠ t2.toList.length)
    (h : equalFold key t1 = true) : equalFold key t2 = false := by
  cases hb : equalFold key t2 with
  | false => rfl
  | true =>
      exact absurd ((equalFoldChars_length _ _ h).symm.trans
        (equalFoldChars_length _ _ hb)) hne

/-- The spec-side description of one decoded field under the amended C7:
walk the entries in order; a case-insensitively matching key holding a
string overwrites the value so far (last match wins), a matching null
leaves it, non-matching keys are ignored. -/
def specFoldStep (tag : String) (acc : String) (entry : String × Json) : String :=
  if equalFold entry.1 tag then
    match entry.2 with
    | Json.str s => s
    | _ => acc
  else acc

/-- Folding specFoldStep from a given starting value. -/
def specFoldFieldFrom (init : String) (fields : List (String × Json))
    (tag : String) : String :=
  fields.foldl (specFoldStep tag) init

/-- The spec-side value of one decoded field: fold from the empty string,
so a field with no case-insensitively matching key is empty. -/
def specFoldField (fields : List (String × Json)) (tag : String) : String :=
  specFoldFieldFrom "" fields tag

lemma specFoldFieldFrom_cons (init : String) (entry : String × Json)
    (rest : List (String × Json)) (tag : String) :
    specFoldFieldFrom init (entry :: rest) tag
      = specFoldFieldFrom (specFoldStep tag init entry) rest tag := rfl

lemma specFoldFieldFrom_no_match (init : String)
    (fields : List (String × Json)) (tag : String)
    (h : ∀ entry ∈ fields, equalFold entry.1 tag = false) :
    specFoldFieldFrom init fields tag = init := by
  induction fields generalizing init with
  | nil => rfl
  | cons entry rest ih =>
      rw [specFoldFieldFrom_cons]
      rw [show specFoldStep tag init entry = init from by
        simp [specFoldStep, h entry (List.mem_cons_self _ _)]]
      exact ih _ (fun e he => h e (List.mem_cons_of_mem _ he))

lemma unmarshalFields_cons_ok (d : EMREventDetail) (key : String)
    (value : Json) (d2 : EMREventDetail)
    (h : applyField d key value = Except.ok d2)
    (rest : List (String × Json)) :
    unmarshalFields d ((key, value) :: rest) = unmarshalFields d2 rest := by
  rw [show unmarshalFields d ((key, value) :: rest)
      = Except.bind (applyField d key value)
          (fun x => unmarshalFields x rest) from rfl, h]
  rfl

lemma unmarshalFields_eq_fold (fields : List (String × Json))
    (d : EMREventDetail)
    (hstr : ∀ entry ∈ fields,
      (equalFold entry.1 "severity" || equalFold entry.1 "state"
        || equalFold entry.1 "message") = true →
      (∃ s, entry.2 = Json.str s) ∨ entry.2 = Json.null) :
    unmarshalFields d fields = Except.ok
      { severity := specFoldFieldFrom d.severity fields "severity"
      , state := specFoldFieldFrom d.state fields "state"
      , message := specFoldFieldFrom d.message fields "message" } := by
  induction fields generalizing d with
  | nil => rfl
  | cons entry rest ih =>
      obtain ⟨key, value⟩ := entry
      have hrest : ∀ e ∈ rest,
          (equalFold e.1 "severity" || equalFold e.1 "state"
            || equalFold e.1 "message") = true →
          (∃ s, e.2 = Json.str s) ∨ e.2 = Json.null :=
        fun e he hm => hstr e (List.mem_cons_of_mem _ he) hm
      cases h1 : equalFold key "severity" with
      | true =>
          have h2 : equalFold key "state" = false :=
            equalFold_unique_tag key "severity" "state" (by decide) h1
          have h3 : equalFold key "message" = false :=
            equalFold_unique_tag key "severity" "message" (by decide) h1
          rcases hstr (key, value) (List.mem_cons_self _ _) (by simp [h1])
            with ⟨s, hv⟩ | hv
          · subst hv
            rw [unmarshalFields_cons_ok d key (Json.str s)
              { d with severity := s } (by simp [applyField, h1]) rest,
              ih _ hrest]
            simp only [specFoldFieldFrom_cons, specFoldStep, h1, h2, h3]
            simp
          · subst hv
            rw [unmarshalFields_cons_ok d key Json.null d
              (by simp [applyField, h1]) rest, ih _ hrest]
            simp only [specFoldFieldFrom_cons, specFoldStep, h1, h2, h3]
            simp
      | false =>
          cases h2 : equalFold key "state" with
          | true =>
              have h3 : equalFold key "message" = false :=
                equalFold_unique_tag key "state" "message" (by decide) h2
              rcases hstr (key, value) (List.mem_cons_self _ _) (by simp [h2])
                with ⟨s, hv⟩ | hv
              · subst hv
                rw [unmarshalFields_cons_ok d key (Json.str s)
                  { d with state := s } (by simp [applyField, h1, h2]) rest,
                  ih _ hrest]
                simp only [specFoldFieldFrom_cons, specFoldStep, h1, h2, h3]
                simp
              · subst hv
                rw [unmarshalFields_cons_ok d key Json.null d
                  (by simp [applyField, h1, h2]) rest, ih _ hrest]
                simp only [specFoldFieldFrom_cons, specFoldStep, h1, h2, h3]
                simp
          | false =>
              cases h3 : equalFold key "message" with
              | true =>
                  rcases hstr (key, value) (List.mem_cons_self _ _)
                    (by simp [h3]) with ⟨s, hv⟩ | hv
                  · subst hv
                    rw [unmarshalFields_cons_ok d key (Json.str s)
                      { d with message := s }
                      (by simp [applyField, h1, h2, h3]) rest, ih _ hrest]
                    simp only [specFoldFieldFrom_cons, specFoldStep, h1, h2, h3]
                    simp
                  · subst hv
                    rw [unmarshalFields_cons_ok d key Json.null d
                      (by simp [applyField, h1, h2, h3]) rest, ih _ hrest]
                    simp only [specFoldFieldFrom_cons, specFoldStep, h1, h2, h3]
                    simp
              | false =>
                  rw [unmarshalFields_cons_ok d key value d
                    (by simp [applyField, h1, h2, h3]) rest, ih _ hrest]
                  simp only [specFoldFieldFrom_cons, specFoldStep, h1, h2, h3]
                  simp

/-- C7 counterexample, refuting the claim as stated: the object with the
single key Severity contains none of the exact keys severity, state,
message, so under the claim that unknown key would be ignored and the
missing severity key would map to the empty string; the decoder matches
keys case-insensitively, as encoding/json does, and yields severity X. -/
theorem decode_exact_keys_counterexample :
    unmarshalEMREventDetail (some (Json.obj [("Severity", Json.str "X")]))
      = Except.ok { severity := "X", state := "", message := "" }
    ∧ ("X" : String) ≠ "" :=
  ⟨rfl, by decide⟩

/-- C7 (amended): keys are matched case-insensitively (strings.EqualFold),
not only exactly. Decoding a well-formed detail object succeeds whenever
every key matching severity/state/message case-insensitively holds a
string or null; each field is the last string value among its matching
keys (duplicates resolve to the last), so a field with no matching key —
in particular a missing key with no case-variant present — is the empty
string; and a key matching none of the three case-insensitively is
ignored: prepending it leaves the decode result unchanged. -/
theorem decode_subset_defaults
    (fields : List (String × Json)) (k : String) (v : Json)
    (hstr : ∀ entry ∈ fields,
      (equalFold entry.1 "severity" || equalFold entry.1 "state"
        || equalFold entry.1 "message") = true →
      (∃ s, entry.2 = Json.str s) ∨ entry.2 = Json.null)
    (hk : (equalFold k "severity" || equalFold k "state"
        || equalFold k "message") = false) :
    unmarshalEMREventDetail (some (Json.obj fields)) =
      Except.ok
        { severity := specFoldField fields "severity"
        , state := specFoldField fields "state"
        , message := specFoldField fields "message" }
    ∧ (∀ tag, (∀ entry ∈ fields, equalFold entry.1 tag = false) →
        specFoldField fields tag = "")
    ∧ unmarshalEMREventDetail (some (Json.obj ((k, v) :: fields)))
        = unmarshalEMREventDetail (some (Json.obj fields)) := by
  refine ⟨?_, ?_, ?_⟩
  · rw [show unmarshalEMREventDetail (some (Json.obj fields))
        = unmarshalFields { severity := "", state := "", message := "" } fields
      from rfl]
    exact unmarshalFields_eq_fold fields _ hstr
  · intro tag h
    exact specFoldFieldFrom_no_match "" fields tag h
  · simp only [Bool.or_eq_false_iff] at hk
    obtain ⟨⟨hk1, hk2⟩, hk3⟩ := hk
    rw [show unmarshalEMREventDetail (some (Json.obj ((k, v) :: fields)))
        = unmarshalFields { severity := "", state := "", message := "" }
            ((k, v) :: fields) from rfl]
    rw [unmarshalFields_cons_ok { severity := "", state := "", message := "" }
      k v { severity := "", state := "", message := "" }
      (by simp [applyField, hk1, hk2, hk3]) fields]
    rfl

/-- A detail object with a duplicate case-variant state key, a null
severity, no message key, and one non-matching key, as a test value. -/
def foldFields : List (String × Json) :=
  [ ("state", Json.str "RUNNING"), ("STATE", Json.str "TERMINATED")
  , ("severity", Json.null), ("custom", Json.num 7) ]

/-- Witness for the amended C7 at foldFields: decode succeeds, the
case-variant key STATE overwrites state last, severity and message come
out empty, and prepending the non-matching key custom2 changes nothing. -/
theorem decode_subset_defaults_witness :
    unmarshalEMREventDetail (some (Json.obj foldFields)) =
      Except.ok
        { severity := specFoldField foldFields "severity"
        , state := specFoldField foldFields "state"
        , message := specFoldField foldFields "message" }
    ∧ (∀ tag, (∀ entry ∈ foldFields, equalFold entry.1 tag = false) →
        specFoldField foldFields tag = "")
    ∧ unmarshalEMREventDetail
        (some (Json.obj (("custom2", Json.boolean true) :: foldFields)))
      = unmarshalEMREventDetail (some (Json.obj foldFields)) := by
  refine decode_subset_defaults foldFields "custom2" (Json.boolean true)
    ?_ (by decide)
  intro entry he hm
  simp only [foldFields, List.mem_cons, List.not_mem_nil, or_false] at he
  rcases he with rfl | rfl | rfl | rfl
  · exact Or.inl ⟨"RUNNING", rfl⟩
  · exact Or.inl ⟨"TERMINATED", rfl⟩
  · exact Or.inr rfl
  · exact absurd hm (by decide)
